import Mathlib

/-
Shallow embedding of rank_llm's response-analysis module
(src/rank_llm/analysis/response_analysis_verbose.py).

Modelling conventions:
* Python strings are Lean `String`s; character-level work is done on
  `String.data : List Char`.
* `str.isdigit` is modelled by `Char.isDigit` (ASCII decimal digits; the
  response notation contract of the repository uses base-10 ASCII digits,
  and every other character class behaves identically in the claims below).
* Python floats are modelled as exact rationals (`ℚ`); `round(x, 2)` is
  modelled by round-half-to-even on hundredths (`pyRound2`), Python's
  rounding mode.
* A Python function that can raise is modelled with `Option`/`Except`:
  `none` / `.error` is an uncaught exception, tagged by `PyErr`.
* Printing (`verbose=True`) is modelled by threading an explicit list of
  emitted lines through the computation.
-/

/-- The four classification outcomes: the keys of `stats_dict`. -/
inductive Outcome where
  | ok
  | wrong_format
  | repetition
  | missing_documents
deriving DecidableEq

/-- Uncaught Python exceptions the modelled code can raise:
`IndexError` (trimming loop on a digit-free response), `ZeroDivisionError`
(normalising an empty batch), `ValueError` (prompt shape / no regex match). -/
inductive PyErr where
  | indexError
  | zeroDivisionError
  | valueError
deriving DecidableEq

deriving instance DecidableEq for Except

/-- `_validate_format`: every character must be a digit, a bracket, a
greater-than sign or a space (the loop with early `return False`). -/
def validate_format (response : String) : Bool :=
  response.data.all (fun c => c.isDigit || c == '[' || c == ']' || c == '>' || c == ' ')

/-- The trimming step
`while not resp[begin].isdigit(): begin += 1` /
`while not resp[len(resp)-end-1].isdigit(): end += 1` /
`resp = resp[begin : len(resp)-end]`.
`begin` counts the leading non-digit characters and `end` the trailing
ones, so the slice drops exactly the maximal non-digit runs at both ends.
When the string contains no digit at all (the empty string included), the
first loop runs past the end of the string: `resp[begin]` raises
`IndexError`, modelled by `none`. -/
def trimCore (l : List Char) : Option (List Char) :=
  if l.any Char.isDigit then
    some (((l.dropWhile (fun c => !c.isDigit)).reverse.dropWhile (fun c => !c.isDigit)).reverse)
  else
    none

/-- `resp.split("] > [")`: split on the exact five-character delimiter,
scanning left to right over non-overlapping occurrences, as Python's
`str.split` with a non-empty separator does. -/
def delimSplit : List Char → List (List Char)
  | ']' :: ' ' :: '>' :: ' ' :: '[' :: rest => [] :: delimSplit rest
  | c :: rest =>
    match delimSplit rest with
    | [] => [[c]]
    | tok :: toks => (c :: tok) :: toks
  | [] => [[]]

/-- Decimal value of a digit list, most significant first. -/
def digitsToNat (l : List Char) : Nat :=
  l.foldl (fun n c => 10 * n + (c.toNat - 48)) 0

/-- Python `int(token)` on a token drawn from a string that passed
`_validate_format` (so its characters are digits, brackets, greater-than
signs and spaces): surrounding whitespace is stripped, and the rest must be
a non-empty run of digits; otherwise `ValueError` (`none`).  Sign characters
and underscores, which `int` would also accept, cannot survive the
character-set gate, so they need no case here. -/
def pyInt (tok : List Char) : Option Nat :=
  let s := ((tok.dropWhile (fun c => c == ' ')).reverse.dropWhile (fun c => c == ' ')).reverse
  if s.isEmpty then none
  else if s.all Char.isDigit then some (digitsToNat s)
  else none

/-- `ranks = [int(rank) for rank in ranks]` inside `try`: the first failing
token raises, caught as one failure for the whole list. -/
def parseAll (toks : List (List Char)) : Option (List Nat) :=
  toks.mapM pyInt

/-- One iteration of the `count_errors` loop body, for one
(response, expected count) pair: the outcome recorded into `stats_dict`,
or `none` when the iteration raises `IndexError` in the trimming loops. -/
def classifyOne (resp : String) (num_passage : Nat) : Option Outcome :=
  if !(validate_format resp) then some .wrong_format
  else
    match trimCore resp.data with
    | none => none
    | some core =>
      match parseAll (delimSplit core) with
      | none => some .wrong_format
      | some ranks =>
        if ranks.length < num_passage then some .missing_documents
        else if num_passage < ranks.length ∨ ranks.dedup.length < num_passage then
          some .repetition
        else some .ok

/-- The lines the same loop body prints when `verbose` is true: the raw
response on a character-set failure, the trimmed core on an integer-parse
failure, nothing otherwise. -/
def classifyLog (resp : String) : List String :=
  if !(validate_format resp) then [resp]
  else
    match trimCore resp.data with
    | none => []
    | some core =>
      match parseAll (delimSplit core) with
      | none => [String.mk core]
      | some _ => []

/-- `stats_dict`: the four counters, in the dict's insertion order. -/
structure StatsDict where
  ok : Nat
  wrong_format : Nat
  repetition : Nat
  missing_documents : Nat
deriving DecidableEq

/-- `stats_dict[key] += 1` for the key of one outcome. -/
def bump (s : StatsDict) : Outcome → StatsDict
  | .ok => { s with ok := s.ok + 1 }
  | .wrong_format => { s with wrong_format := s.wrong_format + 1 }
  | .repetition => { s with repetition := s.repetition + 1 }
  | .missing_documents => { s with missing_documents := s.missing_documents + 1 }

/-- The `for resp, num_passage in zip(responses, num_passages)` loop:
accumulates the counters and the printed lines; an `IndexError` in one
iteration aborts the whole call. -/
def tally (verbose : Bool) : List (String × Nat) → StatsDict → List String →
    Except PyErr (StatsDict × List String)
  | [], s, out => .ok (s, out)
  | (resp, k) :: rest, s, out =>
    match classifyOne resp k with
    | none => .error .indexError
    | some o => tally verbose rest (bump s o) (out ++ (if verbose then classifyLog resp else []))

/-- Round-half-to-even to an integer, Python's `round` on exact values. -/
def pyRoundInt (y : ℚ) : ℤ :=
  if y - ⌊y⌋ < 1/2 then ⌊y⌋
  else if 1/2 < y - ⌊y⌋ then ⌊y⌋ + 1
  else if ⌊y⌋ % 2 = 0 then ⌊y⌋
  else ⌊y⌋ + 1

/-- Python `round(x, 2)`. -/
def pyRound2 (x : ℚ) : ℚ :=
  (pyRoundInt (100 * x) : ℚ) / 100

/-- `count_errors(responses, num_passages, verbose)`: runs the
classification loop, then builds the normalized dict
`(stats_dict[key] / len(responses)) * 100.0`, rounded to two decimals, in
the dict's key order.  The division by `len(responses)` raises
`ZeroDivisionError` on an empty `responses` list.  Returns the report (as
the ordered key/value list the Python dict is) together with the lines
printed along the way. -/
def count_errors (responses : List String) (num_passages : List Nat) (verbose : Bool) :
    Except PyErr (List (String × ℚ) × List String) :=
  match tally verbose (responses.zip num_passages) ⟨0, 0, 0, 0⟩ [] with
  | .error e => .error e
  | .ok (s, out) =>
    if responses.length = 0 then .error .zeroDivisionError
    else
      .ok ([("ok", pyRound2 ((s.ok : ℚ) / (responses.length : ℚ) * 100)),
            ("wrong_format", pyRound2 ((s.wrong_format : ℚ) / (responses.length : ℚ) * 100)),
            ("repetition", pyRound2 ((s.repetition : ℚ) / (responses.length : ℚ) * 100)),
            ("missing_documents",
              pyRound2 ((s.missing_documents : ℚ) / (responses.length : ℚ) * 100))], out)

/-- The prompt value handed to `_get_num_passages`: a plain string, a list
of role-tagged messages (only their `content` strings matter to the code),
or any other Python value (`other`), which the `else` branch rejects. -/
inductive Prompt where
  | str (s : String)
  | msgs (contents : List String)
  | other
deriving DecidableEq

/-- The literal characters before the count in the pattern
`(I will provide you with) (\d+) (passages)`. -/
def patternPre : List Char := "I will provide you with ".data

/-- The literal characters after the count in the same pattern. -/
def patternPost : List Char := " passages".data

/-- Whether the regex matches at the very start of `l`, and the value of
group 2 if so.  Because the greedy `\d+` is followed by the literal space
of ` passages`, backtracking inside the digit run cannot help (the
character after a shorter run is a digit, not a space), so the pattern
matches at a position exactly when the literal prefix is followed by a
non-empty maximal digit run which is itself followed by ` passages`. -/
def matchAt (l : List Char) : Option Nat :=
  if patternPre.isPrefixOf l then
    if ((l.drop patternPre.length).takeWhile Char.isDigit).isEmpty then none
    else if patternPost.isPrefixOf ((l.drop patternPre.length).dropWhile Char.isDigit) then
      some (digitsToNat ((l.drop patternPre.length).takeWhile Char.isDigit))
    else none
  else none

/-- `re.search(regex, search_text)`: try each start position left to
right, return group 2 of the first position that matches. -/
def research : List Char → Option Nat
  | [] => none
  | c :: t =>
    match matchAt (c :: t) with
    | some n => some n
    | none => research t

/-- The search text `_get_num_passages` builds: the prompt itself for a
string, the concatenation of the messages' `content` fields
(`search_text += message["content"]`) for a list, nothing for an
unsupported shape. -/
def promptText : Prompt → Option String
  | .str s => some s
  | .msgs contents => some (contents.foldl (fun a b => a ++ b) "")
  | .other => none

/-- `_get_num_passages(prompt)`: builds the search text (raising
`ValueError` for an unsupported prompt shape), searches for the pattern
and returns `int(match.group(2))`, raising `ValueError` when there is no
match. -/
def get_num_passages (prompt : Prompt) : Except PyErr Nat :=
  match prompt with
  | .str s =>
    match research s.data with
    | some n => .ok n
    | none => .error .valueError
  | .msgs contents =>
    match research (contents.foldl (fun a b => a ++ b) "").data with
    | some n => .ok n
    | none => .error .valueError
  | .other => .error .valueError

/-- Number of zipped (response, expected count) pairs of a batch whose
loop iteration lands on outcome `o`. -/
def outcomeCount (responses : List String) (num_passages : List Nat) (o : Outcome) : Nat :=
  ((responses.zip num_passages).map (fun p => classifyOne p.1 p.2)).count (some o)

/-- Add `m` to the counter of outcome `o`. -/
def bumpN (s : StatsDict) (o : Outcome) (m : Nat) : StatsDict :=
  match o with
  | .ok => { s with ok := s.ok + m }
  | .wrong_format => { s with wrong_format := s.wrong_format + m }
  | .repetition => { s with repetition := s.repetition + m }
  | .missing_documents => { s with missing_documents := s.missing_documents + m }

/-- Responses of the batch that refutes the strictly-below-100 part of the
length-mismatch claim: 5100 responses, of which only the first 5099 get a
partner from `mismatchNums`. -/
def mismatchResps : List String :=
  List.replicate 38 "[1]" ++
    (List.replicate 38 "x" ++
      (List.replicate 38 "[1] > [1]" ++ (List.replicate 4985 "[1]" ++ ["x"])))

/-- The matching expected counts, one element short: 5099 entries. -/
def mismatchNums : List Nat :=
  List.replicate 38 1 ++
    (List.replicate 38 1 ++ (List.replicate 38 1 ++ List.replicate 4985 2))

-- Sanity checks of the embedding on the spec's end-to-end example.
example : classifyOne "[2] > [1] > [3]" 3 = some Outcome.ok := by decide
example : classifyOne "[1] > [2]" 3 = some Outcome.missing_documents := by decide
example : classifyOne "abc" 3 = some Outcome.wrong_format := by decide
example : classifyOne "[1] > [2] > [2]" 2 = some Outcome.repetition := by decide
example : classifyOne "" 0 = none := by decide
example : delimSplit "3] > [1] > [2".data = ["3".data, "1".data, "2".data] := by decide
example : research "I will provide you with 20 passages.".data = some 20 := by decide
example : research "hey I will provide you with 7 passages, I will provide you with 9 passages".data
    = some 7 := by decide
example : research "I will provide you with passages".data = none := by decide
example : get_num_passages (.msgs ["I will provide you ", "with 20 passages"]) = .ok 20 := by
  decide

/-! ### Rounding lemmas -/

theorem abs_pyRoundInt_sub (y : ℚ) : |(pyRoundInt y : ℚ) - y| ≤ 1/2 := by
  have h0 : (⌊y⌋ : ℚ) ≤ y := Int.floor_le y
  have h1 : y < ⌊y⌋ + 1 := Int.lt_floor_add_one y
  unfold pyRoundInt
  split_ifs with ha hb hc
  · rw [abs_le]; constructor <;> linarith
  · push_cast; rw [abs_le]; constructor <;> linarith
  · rw [abs_le]
    have ha' : ¬ (y - ⌊y⌋ < 1/2) := ha
    have hb' : ¬ ((1:ℚ)/2 < y - ⌊y⌋) := hb
    constructor <;> linarith [not_lt.mp ha', not_lt.mp hb']
  · push_cast; rw [abs_le]
    have ha' : ¬ (y - ⌊y⌋ < 1/2) := ha
    have hb' : ¬ ((1:ℚ)/2 < y - ⌊y⌋) := hb
    constructor <;> linarith [not_lt.mp ha', not_lt.mp hb']

theorem pyRound2_close (x : ℚ) : |pyRound2 x - x| ≤ 1/200 := by
  have h := abs_pyRoundInt_sub (100 * x)
  have he : pyRound2 x - x = ((pyRoundInt (100 * x) : ℚ) - 100 * x) / 100 := by
    unfold pyRound2; ring
  have h100 : |(100 : ℚ)| = 100 := by norm_num
  rw [he, abs_div, h100]
  linarith

theorem pyRound2_le_add (x : ℚ) : pyRound2 x ≤ x + 1/200 := by
  have h := abs_le.mp (pyRound2_close x)
  linarith [h.2]

theorem pyRound2_exact (x : ℚ) (k : ℤ) (h : 100 * x = (k : ℚ)) : pyRound2 x = x := by
  have hf : ⌊100 * x⌋ = k := by rw [h]; exact Int.floor_intCast k
  have hval : ((k : ℤ) : ℚ) / 100 = x := by rw [← h]; ring
  unfold pyRound2 pyRoundInt
  rw [hf, h]
  rw [if_pos (by norm_num)]
  exact hval

theorem pyRound2_eq_up (x : ℚ) (k : ℤ) (h1 : (k : ℚ) + 1/2 < 100 * x)
    (h2 : 100 * x < (k : ℚ) + 1) : pyRound2 x = ((k + 1 : ℤ) : ℚ) / 100 := by
  have hf : ⌊100 * x⌋ = k := by
    rw [Int.floor_eq_iff]; constructor
    · linarith
    · linarith
  unfold pyRound2 pyRoundInt
  rw [hf]
  rw [if_neg (by linarith), if_pos (by linarith)]

theorem pyRound2_eq_down (x : ℚ) (k : ℤ) (h1 : (k : ℚ) ≤ 100 * x)
    (h2 : 100 * x < (k : ℚ) + 1/2) : pyRound2 x = (k : ℚ) / 100 := by
  have hf : ⌊100 * x⌋ = k := by
    rw [Int.floor_eq_iff]; constructor
    · linarith
    · linarith
  unfold pyRound2 pyRoundInt
  rw [hf]
  rw [if_pos (by linarith)]

/-! ### List helpers -/

theorem takeWhile_append_all {α} (p : α → Bool) (l1 l2 : List α) (h : ∀ c ∈ l1, p c = true) :
    (l1 ++ l2).takeWhile p = l1 ++ l2.takeWhile p := by
  induction l1 with
  | nil => rfl
  | cons a t ih =>
    rw [List.cons_append, List.takeWhile_cons, if_pos (h a (List.mem_cons_self a t)),
      List.cons_append, ih fun c hc => h c (List.mem_cons_of_mem a hc)]

theorem dropWhile_append_all {α} (p : α → Bool) (l1 l2 : List α) (h : ∀ c ∈ l1, p c = true) :
    (l1 ++ l2).dropWhile p = l2.dropWhile p := by
  induction l1 with
  | nil => rfl
  | cons a t ih =>
    rw [List.cons_append, List.dropWhile_cons, if_pos (h a (List.mem_cons_self a t))]
    exact ih fun c hc => h c (List.mem_cons_of_mem a hc)

theorem isPrefixOf_append_self (l1 l2 : List Char) : l1.isPrefixOf (l1 ++ l2) = true := by
  rw [List.isPrefixOf_iff_prefix]; exact List.prefix_append l1 l2

/-! ### Loop (tally) lemmas -/

theorem tally_append_ok (v : Bool) (p1 p2 : List (String × Nat)) (s : StatsDict)
    (out : List String) (s1 : StatsDict) (o1 : List String)
    (h : tally v p1 s out = .ok (s1, o1)) :
    tally v (p1 ++ p2) s out = tally v p2 s1 o1 := by
  induction p1 generalizing s out with
  | nil =>
    simp only [tally, Except.ok.injEq, Prod.mk.injEq] at h
    rw [List.nil_append, h.1, h.2]
  | cons a rest ih =>
    obtain ⟨resp, k⟩ := a
    cases hc : classifyOne resp k with
    | none => simp [tally, hc] at h
    | some o =>
      simp only [List.cons_append, tally, hc] at h ⊢
      exact ih _ _ h

theorem bump_bumpN (s : StatsDict) (o : Outcome) (n : Nat) :
    bumpN (bump s o) o n = bumpN s o (n + 1) := by
  cases o <;> simp [bump, bumpN] <;> omega

theorem tally_replicate_false (r : String) (k : Nat) (o : Outcome) (m : Nat) (s : StatsDict)
    (out : List String) (h : classifyOne r k = some o) :
    tally false (List.replicate m (r, k)) s out = .ok (bumpN s o m, out) := by
  induction m generalizing s with
  | zero => cases o <;> simp [tally, bumpN]
  | succ n ih =>
    simp only [List.replicate_succ, tally, h, Bool.false_eq_true, if_false, List.append_nil]
    rw [ih (bump s o), bump_bumpN]

theorem tally_total (v : Bool) (pairs : List (String × Nat)) (s : StatsDict) (out : List String)
    (s' : StatsDict) (out' : List String) (h : tally v pairs s out = .ok (s', out')) :
    s'.ok + s'.wrong_format + s'.repetition + s'.missing_documents
      = s.ok + s.wrong_format + s.repetition + s.missing_documents + pairs.length := by
  induction pairs generalizing s out with
  | nil =>
    simp only [tally, Except.ok.injEq, Prod.mk.injEq] at h
    rw [← h.1]; simp
  | cons a rest ih =>
    obtain ⟨resp, k⟩ := a
    cases hc : classifyOne resp k with
    | none => simp [tally, hc] at h
    | some o =>
      simp only [tally, hc] at h
      have := ih _ _ h
      cases o <;> simp [bump] at this <;> simp [List.length_cons] <;> omega

theorem tally_counts (v : Bool) (pairs : List (String × Nat)) (s : StatsDict) (out : List String)
    (s' : StatsDict) (out' : List String) (h : tally v pairs s out = .ok (s', out')) :
    s'.ok = s.ok + (pairs.map (fun p => classifyOne p.1 p.2)).count (some .ok) ∧
    s'.wrong_format
      = s.wrong_format + (pairs.map (fun p => classifyOne p.1 p.2)).count (some .wrong_format) ∧
    s'.repetition
      = s.repetition + (pairs.map (fun p => classifyOne p.1 p.2)).count (some .repetition) ∧
    s'.missing_documents
      = s.missing_documents
        + (pairs.map (fun p => classifyOne p.1 p.2)).count (some .missing_documents) := by
  induction pairs generalizing s out with
  | nil =>
    simp only [tally, Except.ok.injEq, Prod.mk.injEq] at h
    rw [← h.1]; simp
  | cons a rest ih =>
    obtain ⟨resp, k⟩ := a
    cases hc : classifyOne resp k with
    | none => simp [tally, hc] at h
    | some o =>
      simp only [tally, hc] at h
      obtain ⟨h1, h2, h3, h4⟩ := ih _ _ h
      simp only [List.map_cons, List.count_cons, hc]
      cases o <;>
        simp only [bump] at h1 h2 h3 h4 <;>
        refine ⟨?_, ?_, ?_, ?_⟩ <;>
        simp [h1, h2, h3, h4] <;>
        omega

theorem tally_all_some (v : Bool) (pairs : List (String × Nat)) (s : StatsDict)
    (out : List String) (h : ∀ p ∈ pairs, (classifyOne p.1 p.2).isSome = true) :
    ∃ s' out', tally v pairs s out = .ok (s', out') := by
  induction pairs generalizing s out with
  | nil => exact ⟨s, out, rfl⟩
  | cons a rest ih =>
    obtain ⟨resp, k⟩ := a
    have hm := h (resp, k) (by simp)
    cases hc : classifyOne resp k with
    | none => rw [hc] at hm; simp at hm
    | some o =>
      obtain ⟨s', out', hh⟩ := ih (bump s o)
        (out ++ if v = true then classifyLog resp else []) (fun p hp => h p (by simp [hp]))
      exact ⟨s', out', by simp only [tally, hc]; exact hh⟩

theorem tally_fst_eq (v1 v2 : Bool) (pairs : List (String × Nat)) (s : StatsDict)
    (o1 o2 : List String) :
    (tally v1 pairs s o1).map Prod.fst = (tally v2 pairs s o2).map Prod.fst := by
  induction pairs generalizing s o1 o2 with
  | nil => simp [tally, Except.map]
  | cons a rest ih =>
    obtain ⟨resp, k⟩ := a
    cases hc : classifyOne resp k with
    | none => simp [tally, hc]
    | some o => simp only [tally, hc]; exact ih _ _ _

/-! ### Regex-search lemmas -/

theorem matchAt_nil : matchAt [] = none := by decide

theorem matchAt_phrase (d v : List Char) (hd : d ≠ []) (hdig : ∀ c ∈ d, c.isDigit = true) :
    matchAt (patternPre ++ (d ++ (patternPost ++ v))) = some (digitsToNat d) := by
  have hpre : patternPre.isPrefixOf (patternPre ++ (d ++ (patternPost ++ v))) = true :=
    isPrefixOf_append_self _ _
  have hdrop : (patternPre ++ (d ++ (patternPost ++ v))).drop patternPre.length
      = d ++ (patternPost ++ v) := List.drop_left _ _
  have hpostCons : patternPost = ' ' :: "passages".data := rfl
  have htake : (d ++ (patternPost ++ v)).takeWhile Char.isDigit = d := by
    rw [takeWhile_append_all Char.isDigit d _ hdig, hpostCons]
    simp [List.takeWhile_cons]
  have hdrop2 : (d ++ (patternPost ++ v)).dropWhile Char.isDigit = patternPost ++ v := by
    rw [dropWhile_append_all Char.isDigit d _ hdig, hpostCons]
    simp [List.dropWhile_cons]
  have hpost : patternPost.isPrefixOf (patternPost ++ v) = true := isPrefixOf_append_self _ _
  have hne : d.isEmpty = false := by cases d with
    | nil => exact absurd rfl hd
    | cons a t => rfl
  unfold matchAt
  rw [if_pos hpre, hdrop, htake, hdrop2, hne]
  simp only [Bool.false_eq_true, if_false]
  rw [if_pos hpost]

theorem research_isSome_of_matchAt (l : List Char) (i : Nat) (n : Nat)
    (h : matchAt (l.drop i) = some n) : ∃ m, research l = some m := by
  induction l generalizing i with
  | nil =>
    rw [List.drop_nil, matchAt_nil] at h
    exact absurd h (by simp)
  | cons c t ih =>
    cases hm : matchAt (c :: t) with
    | some m => exact ⟨m, by simp [research, hm]⟩
    | none =>
      cases i with
      | zero =>
        rw [List.drop_zero, hm] at h
        exact absurd h (by simp)
      | succ j =>
        rw [List.drop_succ_cons] at h
        obtain ⟨m, hm2⟩ := ih j h
        exact ⟨m, by simp [research, hm, hm2]⟩

theorem research_first (l : List Char) (n : Nat) (h : research l = some n) :
    ∃ i, matchAt (l.drop i) = some n ∧ ∀ j, j < i → matchAt (l.drop j) = none := by
  induction l with
  | nil => simp [research] at h
  | cons c t ih =>
    cases hm : matchAt (c :: t) with
    | some m =>
      have hmn : m = n := by
        simp only [research, hm] at h
        injection h
      refine ⟨0, ?_, fun j hj => absurd hj (Nat.not_lt_zero j)⟩
      rw [List.drop_zero, hm, hmn]
    | none =>
      have ht : research t = some n := by simpa only [research, hm] using h
      obtain ⟨i, h1, h2⟩ := ih ht
      refine ⟨i + 1, ?_, ?_⟩
      · rw [List.drop_succ_cons]; exact h1
      · intro j hj
        cases j with
        | zero => rw [List.drop_zero]; exact hm
        | succ j' => rw [List.drop_succ_cons]; exact h2 j' (by omega)

/-! ### Claims -/

/-- C1 (counterexample): the empty response passes the character-set gate
(vacuously) yet contains no digit, so the trimming loop indexes past the
end of the string: the loop body raises `IndexError` instead of assigning
one of the four outcomes, and the whole batch call fails.  This refutes
the claim that classification is total. -/
theorem classifyOne_digitless_crash :
    validate_format "" = true ∧ classifyOne "" 0 = none ∧
      count_errors [""] [0] false = .error PyErr.indexError := by
  decide

/-- C1 (amended): classification is total for every response that either
fails the character-set gate or contains at least one digit; only a
response that passes the gate while containing no digit at all escapes
the four outcomes (by raising `IndexError` in the trimming step). -/
theorem classifyOne_total_of_gate_or_digit (resp : String) (K : Nat)
    (h : validate_format resp = false ∨ resp.data.any Char.isDigit = true) :
    ∃ o, classifyOne resp K = some o := by
  cases hv : validate_format resp with
  | false => exact ⟨.wrong_format, by simp [classifyOne, hv]⟩
  | true =>
    have hdig : resp.data.any Char.isDigit = true := by
      rcases h with h' | h'
      · rw [hv] at h'; exact absurd h' (by simp)
      · exact h'
    have htrim : trimCore resp.data
        = some (((resp.data.dropWhile (fun c => !c.isDigit)).reverse.dropWhile
            (fun c => !c.isDigit)).reverse) := by
      unfold trimCore; rw [if_pos hdig]
    cases hp : parseAll (delimSplit
        (((resp.data.dropWhile (fun c => !c.isDigit)).reverse.dropWhile
          (fun c => !c.isDigit)).reverse)) with
    | none =>
      exact ⟨.wrong_format, by
        simp only [classifyOne, hv, Bool.not_true, Bool.false_eq_true, if_false, htrim, hp]⟩
    | some ranks =>
      refine ⟨if ranks.length < K then .missing_documents
        else if K < ranks.length ∨ ranks.dedup.length < K then .repetition else .ok, ?_⟩
      simp only [classifyOne, hv, Bool.not_true, Bool.false_eq_true, if_false, htrim, hp]
      split_ifs <;> rfl

/-- C1 witness: a concrete instantiation of the amended totality theorem. -/
theorem classifyOne_total_of_gate_or_digit_witness :
    ∃ o, classifyOne "abc" 5 = some o :=
  classifyOne_total_of_gate_or_digit "abc" 5 (Or.inl (by decide))

/-- C2 (counterexample): on the empty batch `count_errors` reaches the
normalization division and fails with `ZeroDivisionError`; no explicit
configuration check rejects the batch before arithmetic. -/
theorem count_errors_empty_batch_zero_division :
    count_errors [] [] false = .error PyErr.zeroDivisionError := by
  decide

/-- C2 (amended): for an empty `responses` list (any `num_passages`, any
verbosity) `count_errors` fails by raising `ZeroDivisionError` at the
normalization division; it never silently returns an empty or zero
report, but the failure is the division itself, not a pre-arithmetic
configuration error. -/
theorem count_errors_empty_responses_zero_division (ns : List Nat) (v : Bool) :
    count_errors [] ns v = .error PyErr.zeroDivisionError := by
  simp [count_errors, tally]

/-- C4: any response containing a character outside
{digit, bracket, greater-than, space} is classified `wrong_format`, for
every expected count — in particular even when the later trimming or
tokenization steps would crash or succeed, showing the gate is applied
first. -/
theorem classifyOne_wrong_format_of_bad_char (resp : String) (K : Nat)
    (h : ∃ c ∈ resp.data, c.isDigit = false ∧ c ≠ '[' ∧ c ≠ ']' ∧ c ≠ '>' ∧ c ≠ ' ') :
    classifyOne resp K = some Outcome.wrong_format := by
  have hv : validate_format resp = false := by
    obtain ⟨c, hc, h1, h2, h3, h4, h5⟩ := h
    unfold validate_format
    rw [List.all_eq_false]
    exact ⟨c, hc, by simp [h1, h2, h3, h4, h5]⟩
  simp [classifyOne, hv]

/-- C4 witness: a concrete letter-bearing response is `wrong_format`. -/
theorem classifyOne_wrong_format_of_bad_char_witness :
    classifyOne "abc" 3 = some Outcome.wrong_format :=
  classifyOne_wrong_format_of_bad_char "abc" 3 (by decide)

/-- C9: the `ok` outcome performs no range check on the rank values:
`[7] > [9]` against expected count 2 parses to the two distinct ranks
7 and 9, both outside 1..2, and is classified `ok`. -/
theorem classifyOne_ok_without_range_check :
    trimCore "[7] > [9]".data = some "7] > [9".data ∧
      parseAll (delimSplit "7] > [9".data) = some [7, 9] ∧
      classifyOne "[7] > [9]" 2 = some Outcome.ok ∧
      (∀ r ∈ [7, 9], 2 < r) := by
  decide

/-- C3: for a response that passes the character-set gate, trims to a
core and whose tokens all parse, the outcome against expected count K is
`missing_documents` when fewer than K ranks were parsed (duplicates
irrelevant), `repetition` when at least K were parsed but either more
than K or fewer than K distinct values, and `ok` when exactly K ranks,
all distinct, were parsed — overcount/duplication takes precedence over
omission once the raw count is at least K. -/
theorem classifyOne_combinatorial (resp : String) (K : Nat) (core : List Char)
    (ranks : List Nat) (hval : validate_format resp = true)
    (htrim : trimCore resp.data = some core)
    (hparse : parseAll (delimSplit core) = some ranks) :
    (ranks.length < K → classifyOne resp K = some Outcome.missing_documents) ∧
    (K ≤ ranks.length → (K < ranks.length ∨ ranks.dedup.length < K) →
      classifyOne resp K = some Outcome.repetition) ∧
    (ranks.length = K → ranks.dedup.length = K → classifyOne resp K = some Outcome.ok) := by
  simp only [classifyOne, hval, Bool.not_true, Bool.false_eq_true, if_false, htrim, hparse]
  refine ⟨fun h => ?_, fun h1 h2 => ?_, fun h1 h2 => ?_⟩
  · rw [if_pos h]
  · rw [if_neg (by omega), if_pos h2]
  · rw [if_neg (by omega), if_neg (by omega)]

/-- C3 witness: `[1] > [1] > [2]` against K = 2 has three parsed ranks,
so overcount wins and the outcome is `repetition`. -/
theorem classifyOne_combinatorial_witness :
    classifyOne "[1] > [1] > [2]" 2 = some Outcome.repetition :=
  (classifyOne_combinatorial "[1] > [1] > [2]" 2 ("1] > [1] > [2".data) [1, 1, 2]
    (by decide) (by decide) (by decide)).2.1 (by decide) (by decide)

/-- C8: the verbose flag changes only what is printed, never the
returned report: on equal-length lists the classification/normalization
result of `count_errors` is identical for `verbose := true` and
`verbose := false` (also on error outcomes). -/
theorem count_errors_verbose_irrelevant (rs : List String) (ns : List Nat)
    (_h : rs.length = ns.length) :
    (count_errors rs ns true).map Prod.fst = (count_errors rs ns false).map Prod.fst := by
  have key := tally_fst_eq true false (rs.zip ns) ⟨0, 0, 0, 0⟩ [] []
  unfold count_errors
  cases h1 : tally true (rs.zip ns) ⟨0, 0, 0, 0⟩ [] with
  | error e =>
    cases h2 : tally false (rs.zip ns) ⟨0, 0, 0, 0⟩ [] with
    | error e2 =>
      rw [h1, h2] at key
      simp only [Except.map] at key
      injection key with ke
      rw [ke]
    | ok p =>
      rw [h1, h2] at key
      simp [Except.map] at key
  | ok p =>
    obtain ⟨s1, o1⟩ := p
    cases h2 : tally false (rs.zip ns) ⟨0, 0, 0, 0⟩ [] with
    | error e =>
      rw [h1, h2] at key
      simp [Except.map] at key
    | ok q =>
      obtain ⟨s2, o2⟩ := q
      rw [h1, h2] at key
      simp only [Except.map] at key
      injection key with ke
      rw [ke]
      dsimp only []
      by_cases hz : rs.length = 0
      · rw [if_pos hz, if_pos hz]
      · rw [if_neg hz, if_neg hz]
        simp [Except.map]

/-- C8 witness: a concrete one-element batch. -/
theorem count_errors_verbose_irrelevant_witness :
    (count_errors ["a"] [1] true).map Prod.fst = (count_errors ["a"] [1] false).map Prod.fst :=
  count_errors_verbose_irrelevant ["a"] [1] rfl

/-- C6: a prompt string containing the phrase
`I will provide you with <digits> passages` yields the integer of the
first (leftmost) match of the pattern, and a message-list prompt whose
concatenated contents equal that string yields the same integer. -/
theorem get_num_passages_first_match (s : String) (msgs : List String) (u d v : List Char)
    (hs : s.data = u ++ (patternPre ++ (d ++ (patternPost ++ v))))
    (hd : d ≠ []) (hdig : ∀ c ∈ d, c.isDigit = true)
    (hm : msgs.foldl (fun a b => a ++ b) "" = s) :
    ∃ n i, get_num_passages (.str s) = .ok n ∧ get_num_passages (.msgs msgs) = .ok n ∧
      matchAt (s.data.drop i) = some n ∧ ∀ j, j < i → matchAt (s.data.drop j) = none := by
  have hmatch : matchAt (s.data.drop u.length) = some (digitsToNat d) := by
    rw [hs, List.drop_left]
    exact matchAt_phrase d v hd hdig
  obtain ⟨m, hm2⟩ := research_isSome_of_matchAt s.data u.length (digitsToNat d) hmatch
  obtain ⟨i, h1, h2⟩ := research_first s.data m hm2
  refine ⟨m, i, ?_, ?_, h1, h2⟩
  · simp [get_num_passages, hm2]
  · simp [get_num_passages, hm, hm2]

/-- C6 witness: the spec's example prompt, as a plain string and as a
two-message list with the same concatenated content. -/
theorem get_num_passages_first_match_witness :
    ∃ n i,
      get_num_passages (.str "I will provide you with 20 passages") = .ok n ∧
      get_num_passages (.msgs ["I will provide ", "you with 20 passages"]) = .ok n ∧
      matchAt (("I will provide you with 20 passages".data).drop i) = some n ∧
      ∀ j, j < i → matchAt (("I will provide you with 20 passages".data).drop j) = none :=
  get_num_passages_first_match "I will provide you with 20 passages"
    ["I will provide ", "you with 20 passages"] [] "20".data []
    (by decide) (by decide) (by decide) (by decide)

/-- C7: `_get_num_passages` fails (with the modelled ValueError, the
spec's FormatError) exactly when the prompt is neither a string nor a
message list, or when the left-to-right pattern search over the built
search text finds nothing; whenever it returns, the returned integer is
exactly the search result — never a guessed or default count. -/
theorem get_num_passages_error_iff (p : Prompt) :
    ((∃ e, get_num_passages p = .error e) ↔
      (p = .other ∨ ∃ t, promptText p = some t ∧ research t.data = none)) ∧
    (∀ n, get_num_passages p = .ok n →
      ∃ t, promptText p = some t ∧ research t.data = some n) := by
  cases p with
  | str s =>
    cases hr : research s.data with
    | none =>
      constructor
      · constructor
        · intro _; exact Or.inr ⟨s, rfl, hr⟩
        · intro _; exact ⟨.valueError, by simp [get_num_passages, hr]⟩
      · intro n hn; simp [get_num_passages, hr] at hn
    | some m =>
      constructor
      · constructor
        · rintro ⟨e, he⟩; simp [get_num_passages, hr] at he
        · rintro (h | ⟨t, ht1, ht2⟩)
          · exact absurd h (by simp)
          · simp only [promptText, Option.some.injEq] at ht1
            rw [← ht1, hr] at ht2
            exact absurd ht2 (by simp)
      · intro n hn
        simp only [get_num_passages, hr, Except.ok.injEq] at hn
        exact ⟨s, rfl, by rw [hr, hn]⟩
  | msgs contents =>
    cases hr : research ((contents.foldl (fun a b => a ++ b) "").data) with
    | none =>
      constructor
      · constructor
        · intro _; exact Or.inr ⟨contents.foldl (fun a b => a ++ b) "", rfl, hr⟩
        · intro _; exact ⟨.valueError, by simp [get_num_passages, hr]⟩
      · intro n hn; simp [get_num_passages, hr] at hn
    | some m =>
      constructor
      · constructor
        · rintro ⟨e, he⟩; simp [get_num_passages, hr] at he
        · rintro (h | ⟨t, ht1, ht2⟩)
          · exact absurd h (by simp)
          · simp only [promptText, Option.some.injEq] at ht1
            rw [← ht1, hr] at ht2
            exact absurd ht2 (by simp)
      · intro n hn
        simp only [get_num_passages, hr, Except.ok.injEq] at hn
        exact ⟨contents.foldl (fun a b => a ++ b) "", rfl, by rw [hr, hn]⟩
  | other =>
    constructor
    · constructor
      · intro _; exact Or.inl rfl
      · intro _; exact ⟨.valueError, rfl⟩
    · intro n hn; simp [get_num_passages] at hn

/-- C5: whenever `count_errors` returns on an equal-length batch, the
report lists exactly the four keys in order, each value is the key's
count divided by the batch size, times 100, rounded to two decimals, and
the four values sum to 100 within 0.02. -/
theorem count_errors_report_keys_values_sum (rs : List String) (ns : List Nat)
    (rep : List (String × ℚ)) (out : List String) (hlen : rs.length = ns.length)
    (hok : count_errors rs ns false = .ok (rep, out)) :
    rep.map Prod.fst = ["ok", "wrong_format", "repetition", "missing_documents"] ∧
    rep.map Prod.snd = [
      pyRound2 ((outcomeCount rs ns .ok : ℚ) / (rs.length : ℚ) * 100),
      pyRound2 ((outcomeCount rs ns .wrong_format : ℚ) / (rs.length : ℚ) * 100),
      pyRound2 ((outcomeCount rs ns .repetition : ℚ) / (rs.length : ℚ) * 100),
      pyRound2 ((outcomeCount rs ns .missing_documents : ℚ) / (rs.length : ℚ) * 100)] ∧
    |(rep.map Prod.snd).sum - 100| ≤ 1/50 := by
  cases ht : tally false (rs.zip ns) ⟨0, 0, 0, 0⟩ [] with
  | error e =>
    unfold count_errors at hok
    rw [ht] at hok
    exact absurd hok (by simp)
  | ok p =>
    obtain ⟨s, out0⟩ := p
    unfold count_errors at hok
    rw [ht] at hok
    dsimp only [] at hok
    by_cases hz : rs.length = 0
    · rw [if_pos hz] at hok
      exact absurd hok (by simp)
    · rw [if_neg hz] at hok
      injection hok with h'
      injection h' with h1 h2
      obtain ⟨hc1, hc2, hc3, hc4⟩ := tally_counts false (rs.zip ns) ⟨0, 0, 0, 0⟩ [] s out0 ht
      simp only [Nat.zero_add] at hc1 hc2 hc3 hc4
      have htot := tally_total false (rs.zip ns) ⟨0, 0, 0, 0⟩ [] s out0 ht
      simp only [Nat.zero_add] at htot
      have hziplen : (rs.zip ns).length = rs.length := by
        rw [List.length_zip]; omega
      rw [hziplen] at htot
      have hn : (rs.length : ℚ) ≠ 0 := Nat.cast_ne_zero.mpr hz
      have hcast : (s.ok : ℚ) + (s.wrong_format : ℚ) + (s.repetition : ℚ)
          + (s.missing_documents : ℚ) = (rs.length : ℚ) := by
        exact_mod_cast htot
      have hsum : (s.ok : ℚ) / (rs.length : ℚ) * 100
          + (s.wrong_format : ℚ) / (rs.length : ℚ) * 100
          + (s.repetition : ℚ) / (rs.length : ℚ) * 100
          + (s.missing_documents : ℚ) / (rs.length : ℚ) * 100 = 100 := by
        field_simp
        linarith [hcast]
      refine ⟨?_, ?_, ?_⟩
      · rw [← h1]; rfl
      · rw [← h1]
        simp only [outcomeCount, List.map_cons, List.map_nil]
        rw [hc1, hc2, hc3, hc4]
      · rw [← h1]
        simp only [List.map_cons, List.map_nil, List.sum_cons, List.sum_nil, add_zero]
        have b1 := pyRound2_close ((s.ok : ℚ) / (rs.length : ℚ) * 100)
        have b2 := pyRound2_close ((s.wrong_format : ℚ) / (rs.length : ℚ) * 100)
        have b3 := pyRound2_close ((s.repetition : ℚ) / (rs.length : ℚ) * 100)
        have b4 := pyRound2_close ((s.missing_documents : ℚ) / (rs.length : ℚ) * 100)
        rw [abs_le] at b1 b2 b3 b4 ⊢
        constructor <;> linarith

/-- C5 witness: the one-element batch of a malformed response gives the
report ok 0, wrong_format 100, repetition 0, missing_documents 0. -/
theorem count_errors_report_keys_values_sum_witness :
    (([("ok", (0 : ℚ)), ("wrong_format", (100 : ℚ)), ("repetition", (0 : ℚ)),
        ("missing_documents", (0 : ℚ))] : List (String × ℚ)).map Prod.fst
      = ["ok", "wrong_format", "repetition", "missing_documents"]) ∧
    (([("ok", (0 : ℚ)), ("wrong_format", (100 : ℚ)), ("repetition", (0 : ℚ)),
        ("missing_documents", (0 : ℚ))] : List (String × ℚ)).map Prod.snd
      = [pyRound2 ((outcomeCount ["abc"] [1] .ok : ℚ)
            / (((["abc"] : List String)).length : ℚ) * 100),
         pyRound2 ((outcomeCount ["abc"] [1] .wrong_format : ℚ)
            / (((["abc"] : List String)).length : ℚ) * 100),
         pyRound2 ((outcomeCount ["abc"] [1] .repetition : ℚ)
            / (((["abc"] : List String)).length : ℚ) * 100),
         pyRound2 ((outcomeCount ["abc"] [1] .missing_documents : ℚ)
            / (((["abc"] : List String)).length : ℚ) * 100)]) ∧
    |(([("ok", (0 : ℚ)), ("wrong_format", (100 : ℚ)), ("repetition", (0 : ℚ)),
        ("missing_documents", (0 : ℚ))] : List (String × ℚ)).map Prod.snd).sum - 100| ≤ 1/50 :=
  count_errors_report_keys_values_sum ["abc"] [1]
    [("ok", 0), ("wrong_format", 100), ("repetition", 0), ("missing_documents", 0)] []
    rfl
    (by
      have ht : tally false ((["abc"] : List String).zip [1]) ⟨0, 0, 0, 0⟩ []
          = .ok (⟨0, 1, 0, 0⟩, []) := by decide
      unfold count_errors
      rw [ht]
      dsimp only []
      rw [if_neg (by decide)]
      norm_num
      rw [pyRound2_exact 0 0 (by norm_num), pyRound2_exact 100 10000 (by norm_num)]
      exact ⟨rfl, rfl, rfl⟩)

theorem zip_replicate_eq {α β : Type} (n : Nat) (a : α) (b : β) :
    (List.replicate n a).zip (List.replicate n b) = List.replicate n (a, b) := by
  induction n with
  | zero => rfl
  | succ m ih => simp [List.replicate_succ, ih]

/-- C10 (amended): on lists of unequal length `count_errors` performs no
length check: it classifies only the zipped prefix of
min(len(responses), len(num_passages)) pairs yet divides every count by
len(responses); when num_passages is shorter and every zipped pair
classifies without error, the call returns a report whose four
percentages sum to at most 100·len(num_passages)/len(responses) + 0.02 —
a bound that rounding can push up to exactly 100.00, so the sum is not
always strictly below 100. -/
theorem count_errors_mismatch_truncation_bound (rs : List String) (ns : List Nat)
    (h1 : ns.length < rs.length)
    (h2 : ∀ p ∈ rs.zip ns, (classifyOne p.1 p.2).isSome = true) :
    ∃ rep out, count_errors rs ns false = .ok (rep, out) ∧
      (rep.map Prod.snd).sum ≤ 100 * (ns.length : ℚ) / (rs.length : ℚ) + 1/50 := by
  obtain ⟨s, out0, ht⟩ := tally_all_some false (rs.zip ns) ⟨0, 0, 0, 0⟩ [] h2
  have hz : rs.length ≠ 0 := by omega
  have htot := tally_total false (rs.zip ns) ⟨0, 0, 0, 0⟩ [] s out0 ht
  simp only [Nat.zero_add] at htot
  have hziplen : (rs.zip ns).length = ns.length := by
    rw [List.length_zip]; omega
  rw [hziplen] at htot
  have hn : (rs.length : ℚ) ≠ 0 := Nat.cast_ne_zero.mpr hz
  have hcast : (s.ok : ℚ) + (s.wrong_format : ℚ) + (s.repetition : ℚ)
      + (s.missing_documents : ℚ) = (ns.length : ℚ) := by
    exact_mod_cast htot
  have hexact : (s.ok : ℚ) / (rs.length : ℚ) * 100
      + (s.wrong_format : ℚ) / (rs.length : ℚ) * 100
      + (s.repetition : ℚ) / (rs.length : ℚ) * 100
      + (s.missing_documents : ℚ) / (rs.length : ℚ) * 100
      = 100 * (ns.length : ℚ) / (rs.length : ℚ) := by
    field_simp
    linarith [hcast]
  refine ⟨[("ok", pyRound2 ((s.ok : ℚ) / (rs.length : ℚ) * 100)),
      ("wrong_format", pyRound2 ((s.wrong_format : ℚ) / (rs.length : ℚ) * 100)),
      ("repetition", pyRound2 ((s.repetition : ℚ) / (rs.length : ℚ) * 100)),
      ("missing_documents", pyRound2 ((s.missing_documents : ℚ) / (rs.length : ℚ) * 100))],
    out0, ?_, ?_⟩
  · unfold count_errors
    rw [ht]
    dsimp only []
    rw [if_neg hz]
  · simp only [List.map_cons, List.map_nil, List.sum_cons, List.sum_nil, add_zero]
    have b1 := pyRound2_le_add ((s.ok : ℚ) / (rs.length : ℚ) * 100)
    have b2 := pyRound2_le_add ((s.wrong_format : ℚ) / (rs.length : ℚ) * 100)
    have b3 := pyRound2_le_add ((s.repetition : ℚ) / (rs.length : ℚ) * 100)
    have b4 := pyRound2_le_add ((s.missing_documents : ℚ) / (rs.length : ℚ) * 100)
    linarith [hexact]

/-- C10 witness: two responses against one expected count — no error is
raised and the single classified pair bounds the report sum by 50 + 0.02. -/
theorem count_errors_mismatch_truncation_bound_witness :
    ∃ rep out, count_errors ["[1]", "x"] [1] false = .ok (rep, out) ∧
      (rep.map Prod.snd).sum
        ≤ 100 * ((([1] : List Nat)).length : ℚ) / (((["[1]", "x"] : List String)).length : ℚ)
          + 1/50 :=
  count_errors_mismatch_truncation_bound ["[1]", "x"] [1] (by decide) (by decide)

/-- C10 (counterexample): a batch of 5100 responses with 5099 expected
counts (zip truncation drops the last response) whose rounded report sums
to exactly 100.00 — refuting the claim that with num_passages shorter the
percentages always sum to strictly less than 100.  Counts: 38 ok, 38
wrong_format, 38 repetition, 4985 missing_documents; each of
38/5100·100 = 0.745098… rounds up to 0.75 and 4985/5100·100 = 97.745098…
rounds up to 97.75, so the report is 0.75 + 0.75 + 0.75 + 97.75 = 100. -/
theorem count_errors_mismatch_sum_reaches_100 :
    ∃ rep out, count_errors mismatchResps mismatchNums false = .ok (rep, out) ∧
      (rep.map Prod.snd).sum = 100 ∧ mismatchNums.length < mismatchResps.length := by
  have h4 : (List.replicate 4985 "[1]" ++ ["x"]).zip (List.replicate 4985 (2 : Nat))
      = List.replicate 4985 ("[1]", (2 : Nat)) := by
    rw [show List.replicate 4985 (2 : Nat) = List.replicate 4985 (2 : Nat) ++ ([] : List Nat)
        from (List.append_nil _).symm]
    rw [List.zip_append (by rw [List.length_replicate, List.length_replicate]), zip_replicate_eq]
    rw [List.zip_nil_right, List.append_nil]
  have hzip : mismatchResps.zip mismatchNums
      = List.replicate 38 ("[1]", 1) ++ (List.replicate 38 ("x", 1)
        ++ (List.replicate 38 ("[1] > [1]", 1) ++ List.replicate 4985 ("[1]", 2))) := by
    unfold mismatchResps mismatchNums
    rw [List.zip_append (by rw [List.length_replicate, List.length_replicate]),
      List.zip_append (by rw [List.length_replicate, List.length_replicate]),
      List.zip_append (by rw [List.length_replicate, List.length_replicate])]
    rw [h4, zip_replicate_eq, zip_replicate_eq, zip_replicate_eq]
  have t1 : tally false (List.replicate 38 ("[1]", 1)) ⟨0, 0, 0, 0⟩ []
      = .ok (⟨38, 0, 0, 0⟩, []) := by
    rw [tally_replicate_false "[1]" 1 .ok 38 ⟨0, 0, 0, 0⟩ [] (by decide)]; rfl
  have t2 : tally false (List.replicate 38 ("x", 1)) ⟨38, 0, 0, 0⟩ []
      = .ok (⟨38, 38, 0, 0⟩, []) := by
    rw [tally_replicate_false "x" 1 .wrong_format 38 ⟨38, 0, 0, 0⟩ [] (by decide)]; rfl
  have t3 : tally false (List.replicate 38 ("[1] > [1]", 1)) ⟨38, 38, 0, 0⟩ []
      = .ok (⟨38, 38, 38, 0⟩, []) := by
    rw [tally_replicate_false "[1] > [1]" 1 .repetition 38 ⟨38, 38, 0, 0⟩ [] (by decide)]; rfl
  have t4 : tally false (List.replicate 4985 ("[1]", 2)) ⟨38, 38, 38, 0⟩ []
      = .ok (⟨38, 38, 38, 4985⟩, []) := by
    rw [tally_replicate_false "[1]" 2 .missing_documents 4985 ⟨38, 38, 38, 0⟩ [] (by decide)]
    rfl
  have ht : tally false (mismatchResps.zip mismatchNums) ⟨0, 0, 0, 0⟩ []
      = .ok (⟨38, 38, 38, 4985⟩, []) := by
    rw [hzip]
    rw [tally_append_ok false _ _ _ _ _ _ t1]
    rw [tally_append_ok false _ _ _ _ _ _ t2]
    rw [tally_append_ok false _ _ _ _ _ _ t3]
    exact t4
  have hlen : mismatchResps.length = 5100 := by
    unfold mismatchResps
    simp only [List.length_append, List.length_replicate, List.length_cons, List.length_nil]
  have hlen2 : mismatchNums.length = 5099 := by
    unfold mismatchNums
    simp only [List.length_append, List.length_replicate]
  have hval1 : pyRound2 ((38 : ℚ) / 5100 * 100) = 3/4 := by
    rw [pyRound2_eq_up ((38 : ℚ) / 5100 * 100) 74 (by norm_num) (by norm_num)]
    norm_num
  have hval2 : pyRound2 ((4985 : ℚ) / 5100 * 100) = 391/4 := by
    rw [pyRound2_eq_up ((4985 : ℚ) / 5100 * 100) 9774 (by norm_num) (by norm_num)]
    norm_num
  have hok : count_errors mismatchResps mismatchNums false
      = .ok ([("ok", pyRound2 ((38 : ℚ) / 5100 * 100)),
              ("wrong_format", pyRound2 ((38 : ℚ) / 5100 * 100)),
              ("repetition", pyRound2 ((38 : ℚ) / 5100 * 100)),
              ("missing_documents", pyRound2 ((4985 : ℚ) / 5100 * 100))], []) := by
    unfold count_errors
    rw [ht]
    dsimp only []
    rw [if_neg (by rw [hlen]; norm_num)]
    rw [hlen]
    norm_num
  refine ⟨_, _, hok, ?_, by rw [hlen, hlen2]; norm_num⟩
  simp only [List.map_cons, List.map_nil, List.sum_cons, List.sum_nil, add_zero, hval1, hval2]
  norm_num
